import Mathlib

/-!
Shallow embedding of the meal-aggregation service in `main.py`.

The service exposes two operations:
* `GET /meals/{meal_name}` (`get_meal`): fetch recipes concurrently from the
  MealDB HTTP API and from a Supabase table, then merge them with a balanced
  random sampling policy capped at `MAX_RESULTS`.
* `POST /add_meal/` (`add_meal`): insert one row into the Supabase table with
  `ON CONFLICT (name) DO NOTHING`.

External effects are made explicit: each network/database interaction is an
input of type `FetchOutcome`, where `err` stands for any raised exception
(transport error, timeout, malformed body, missing pool, query failure).
Randomness (`random.sample`, `random.shuffle`) is an explicit `Rng`
parameter; `Rng.Valid` captures exactly what Python's `random` guarantees:
`sample xs k` returns `k` elements drawn from `xs` (when `k ≤ |xs|`) and
`shuffle` permutes its input. HTTP responses are `Except HTTPErr _`, with
`Except.ok` standing for a 200 response.
-/

/-- Outcome of one external interaction: a value, or any raised exception. -/
inductive FetchOutcome (α : Type) where
  | ok : α → FetchOutcome α
  | err : FetchOutcome α
deriving DecidableEq, Repr

/-- Ingredient field of a recipe record as it travels through the service:
either a raw delimited string (as stored, or as an upstream API returned it)
or a normalized ordered sequence of strings. -/
inductive IngredientField where
  | raw : String → IngredientField
  | seq : List String → IngredientField
deriving DecidableEq, Repr

/-- Recipe record in the unified output shape of the service. Records coming
from the MealDB API are passed through as `\x7b**meal, "source": "MealDB"\x7d`, so
every field except `source` is whatever the API returned. -/
structure Meal where
  idMeal : String
  strMeal : String
  strCategory : String
  strArea : String
  strInstructions : String
  strMealThumb : String
  strIngredients : IngredientField
  minutes : Int
  source : String
deriving DecidableEq, Repr

/-- Row of the `extra_meals` Supabase table (`ingredients` and `images` are
stored as plain strings; `id` is the datastore-assigned key). -/
structure SupabaseRow where
  id : Int
  name : String
  category : String
  area : String
  instructions : String
  ingredients : String
  images : String
  minutes : Int
deriving DecidableEq, Repr

/-- Error raised via `HTTPException(status_code, detail)`. -/
structure HTTPErr where
  status : Nat
  detail : String
deriving DecidableEq, Repr

/-- Result body returned by `get_meal` on success. -/
structure SearchResult where
  total_available : Nat
  mealdb_count : Nat
  supabase_count : Nat
  returned_results : Nat
  max_results : Nat
  data : List Meal
deriving DecidableEq, Repr

/-- the constant `MAX_RESULTS = 20` from `main.py`. -/
def MAX_RESULTS : Nat := 20

/-- Explicit model of the `random` module as used by `get_meal`:
`sample xs k` models `random.sample(xs, k)` and `shuffle` models
`random.shuffle` (as a pure function returning the permuted list). -/
structure Rng where
  sample : List Meal → Nat → List Meal
  shuffle : List Meal → List Meal

/-- what Python's `random` guarantees about the two operations used:
`random.sample(xs, k)` (with `k ≤ len(xs)`, the only way it is called)
returns exactly `k` elements, each drawn from `xs`, and `random.shuffle`
produces a permutation of its input. -/
def Rng.Valid (r : Rng) : Prop :=
  (∀ xs k, k ≤ xs.length → (r.sample xs k).length = k) ∧
  (∀ xs k m, m ∈ r.sample xs k → m ∈ xs) ∧
  (∀ xs, (r.shuffle xs).Perm xs)

/-- Deterministic instance of `Rng` (take a prefix, identity shuffle); it
satisfies `Rng.Valid` and is used to evaluate the model on concrete inputs. -/
def detRand : Rng :=
  { sample := fun xs k => xs.take k
    shuffle := fun xs => xs }

/-- `fetch_mealdb_meals` (main.py lines 57-68): on any exception return `[]`;
on a parsed JSON body, if `data.get("meals")` is absent or empty return `[]`,
otherwise tag every record with `source := "MealDB"` and pass all other
fields through unchanged. -/
def fetch_mealdb_meals (resp : FetchOutcome (Option (List Meal))) : List Meal :=
  match resp with
  | FetchOutcome.err => []
  | FetchOutcome.ok none => []
  | FetchOutcome.ok (some meals) =>
      if meals.isEmpty then []
      else meals.map (fun m => { m with source := "MealDB" })

/-- Python `s.strip(chars)`: drop the characters of `cs` from both ends. -/
def pyStrip (cs : List Char) (s : String) : String :=
  String.mk (((s.toList.dropWhile (fun c => cs.contains c)).reverse.dropWhile
    (fun c => cs.contains c)).reverse)

/-- whitespace characters stripped by Python's argument-less `str.strip()`:
space, tab, newline, carriage return, vertical tab, form feed. -/
def pyWhitespace : List Char :=
  [Char.ofNat 32, Char.ofNat 9, Char.ofNat 10, Char.ofNat 13, Char.ofNat 11, Char.ofNat 12]

/-- Python `meal_name.strip()` as used by the validation check of `get_meal`. -/
def pyStripWs (s : String) : String :=
  pyStrip pyWhitespace s

/-- the ingredient normalization of `fetch_supabase_meals` (main.py line 93):
`meal["ingredients"].strip("[]").replace(APOS, "").split(", ") if
meal["ingredients"] else []`, where APOS is the apostrophe character
(`Char.ofNat 39`). An empty stored field yields `[]`. -/
def parseIngredients (ing : String) : List String :=
  if ing = "" then []
  else (String.mk ((pyStrip [Char.ofNat 91, Char.ofNat 93] ing).toList.filter
    (fun c => c ≠ Char.ofNat 39))).splitOn ", "

/-- Boolean test that `needle` occurs as a contiguous segment of `hay`. -/
def listContainsSeg (needle : List Char) : List Char → Bool
  | [] => needle.isEmpty
  | c :: rest => needle.isPrefixOf (c :: rest) || listContainsSeg needle rest

/-- the SQL `LOWER` function on a string, character by character. Case
folding outside the ASCII range depends on the database collation, which is
configuration not present in the repository; the model folds the ASCII
letters, on which all collations agree. -/
def strLower (s : String) : List Char :=
  s.toList.map Char.toLower

/-- case-insensitive substring containment: the matching notion the spec
ascribes to the datastore fetch ("a case-insensitive substring match against
the name column"). It is compared in `supabase_query_like` with the LIKE
semantics (`nameLike`) the query actually has; the two agree exactly on
terms free of LIKE metacharacters. -/
def lowerContains (hay needle : String) : Bool :=
  listContainsSeg (strLower needle) (strLower hay)

/-- token of a SQL LIKE pattern: a literal character, the single-character
wildcard `_`, or the any-sequence wildcard `%`. -/
inductive LikeTok where
  | lit : Char → LikeTok
  | anyOne : LikeTok
  | anySeq : LikeTok
deriving DecidableEq, Repr

/-- LIKE metacharacters: `%` (37), `_` (95) and the default escape `\x5c`
(92). -/
def isLikeMeta (c : Char) : Bool :=
  c == Char.ofNat 37 || c == Char.ofNat 95 || c == Char.ofNat 92

/-- lexing of a SQL LIKE pattern with the default escape character `\x5c`:
an escaped character is literal, `%` and `_` are wildcards, anything else is
literal. A dangling trailing escape is a PostgreSQL error; it cannot occur
in the patterns this service builds (they end in `%`, and a term-final
escape consumes that `%` as a literal), so the `[]` value of that branch is
never reached. -/
def likeLex : List Char → List LikeTok
  | [] => []
  | c :: rest =>
    if c = Char.ofNat 92 then
      match rest with
      | [] => []
      | d :: rest2 => LikeTok.lit d :: likeLex rest2
    else if c = Char.ofNat 37 then LikeTok.anySeq :: likeLex rest
    else if c = Char.ofNat 95 then LikeTok.anyOne :: likeLex rest
    else LikeTok.lit c :: likeLex rest

/-- all suffixes of a character list, longest first. -/
def suffixes : List Char → List (List Char)
  | [] => [[]]
  | c :: rest => (c :: rest) :: suffixes rest

/-- SQL LIKE matching of a lexed pattern against a character list: a literal
token matches itself, `_` matches exactly one character, and `%` matches any
(possibly empty) sequence — realized by trying the rest of the pattern at
every suffix. -/
def likeMatch : List LikeTok → List Char → Bool
  | [], s => s.isEmpty
  | LikeTok.lit _ :: _, [] => false
  | LikeTok.lit c :: ps, d :: ds => (c == d) && likeMatch ps ds
  | LikeTok.anyOne :: _, [] => false
  | LikeTok.anyOne :: ps, _ :: ds => likeMatch ps ds
  | LikeTok.anySeq :: ps, s => (suffixes s).any (fun t => likeMatch ps t)

/-- the lexed pattern `LOWER($2)` with `$2 = f"%\x7bmeal_name\x7d%"`
(main.py line 83): `%` is unchanged by LOWER, so the lowered pattern is `%`
followed by the lowered term and `%`. Since the user term is spliced into
the pattern, `%`, `_` and `\x5c` inside the term keep their LIKE meaning. -/
def likePattern (term : String) : List LikeTok :=
  likeLex (Char.ofNat 37 :: (strLower term ++ [Char.ofNat 37]))

/-- the SQL condition `LOWER(name) LIKE LOWER($2)` of the query
(main.py line 81). -/
def nameLike (term : String) (row : SupabaseRow) : Bool :=
  likeMatch (likePattern term) (strLower row.name)

/-- the SQL expression `CASE WHEN LOWER(name) = LOWER($1) THEN 1 ELSE 2 END
AS match_priority`. -/
def match_priority (term : String) (row : SupabaseRow) : Nat :=
  if strLower row.name = strLower term then 1 else 2

/-- the query of `fetch_supabase_meals` (main.py lines 77-83): rows of
`extra_meals` satisfying `LOWER(name) LIKE LOWER($2)` with the user term
spliced into `$2 = '%' + meal_name + '%'`, ordered by `match_priority ASC`
(modelled as the stable two-bucket ordering: all priority-1 rows, then all
priority-2 rows). -/
def supabaseQuery (table : List SupabaseRow) (term : String) : List SupabaseRow :=
  let matched := table.filter (fun row => nameLike term row)
  matched.filter (fun row => match_priority term row == 1) ++
    matched.filter (fun row => match_priority term row == 2)

/-- the row-to-record normalization of `fetch_supabase_meals`
(main.py lines 85-98). -/
def rowToMeal (row : SupabaseRow) : Meal :=
  { idMeal := toString row.id
    strMeal := row.name
    strCategory := row.category
    strArea := row.area
    strInstructions := row.instructions
    strMealThumb := row.images
    strIngredients := IngredientField.seq (parseIngredients row.ingredients)
    minutes := row.minutes
    source := "Supabase DB" }

/-- `fetch_supabase_meals` (main.py lines 70-101): on any exception (pool
unavailable, query failure) return `[]`; otherwise run the query against the
table state `db` and normalize each row. -/
def fetch_supabase_meals (db : FetchOutcome (List SupabaseRow)) (meal_name : String) : List Meal :=
  match db with
  | FetchOutcome.err => []
  | FetchOutcome.ok table => (supabaseQuery table meal_name).map rowToMeal

/-- the balanced random selection block of `get_meal` (main.py lines 141-157):
if both lists are non-empty, give MealDB `min(len, MAX_RESULTS // 2)` slots
and Supabase `MAX_RESULTS - that` slots, sampling a source only when it has
more items than its allocation; with one source, sample up to `MAX_RESULTS`
from it alone. -/
def balancedSelect (r : Rng) (mealdb_meals supabase_meals : List Meal) : List Meal :=
  if ¬mealdb_meals.isEmpty ∧ ¬supabase_meals.isEmpty then
    let mealdb_proportion := min mealdb_meals.length (MAX_RESULTS / 2)
    let supabase_proportion := MAX_RESULTS - mealdb_proportion
    (if mealdb_proportion < mealdb_meals.length then
      r.sample mealdb_meals mealdb_proportion
    else mealdb_meals) ++
    (if supabase_proportion < supabase_meals.length then
      r.sample supabase_meals supabase_proportion
    else supabase_meals)
  else
    let source_meals := if ¬mealdb_meals.isEmpty then mealdb_meals else supabase_meals
    r.sample source_meals (min source_meals.length MAX_RESULTS)

/-- body of the `try:` block of `get_meal` (main.py lines 106-168), taking the
two already-fetched lists (per-source failures were already converted to `[]`
both inside the fetch functions and by the `isinstance` checks after
`asyncio.gather`): validate the term, answer all-zero when both lists are
empty, otherwise balance-select, shuffle, and report the counts. -/
def get_meal_try (r : Rng) (meal_name : String) (mealdb_meals supabase_meals : List Meal) :
    Except HTTPErr SearchResult :=
  if meal_name = "" ∨ (pyStripWs meal_name).length < 2 then
    Except.error ⟨400, "Search term must be at least 2 characters"⟩
  else if mealdb_meals.isEmpty ∧ supabase_meals.isEmpty then
    Except.ok ⟨0, 0, 0, 0, MAX_RESULTS, []⟩
  else
    let final_meals := r.shuffle (balancedSelect r mealdb_meals supabase_meals)
    Except.ok ⟨mealdb_meals.length + supabase_meals.length, mealdb_meals.length,
      supabase_meals.length, final_meals.length, MAX_RESULTS, final_meals⟩

/-- `get_meal` (main.py lines 103-172): run the `try:` body on the two fetch
results; the trailing `except Exception as e: raise HTTPException(500, str(e))`
catches every exception raised inside the block — including the 400
`HTTPException` of the validation check, since FastAPI's `HTTPException`
subclasses `Exception` — and re-raises it as a 500 whose detail is
`str(e) = "status: detail"`. -/
def get_meal (r : Rng) (meal_name : String) (mealdbResp : FetchOutcome (Option (List Meal)))
    (dbResp : FetchOutcome (List SupabaseRow)) : Except HTTPErr SearchResult :=
  match get_meal_try r meal_name (fetch_mealdb_meals mealdbResp)
      (fetch_supabase_meals dbResp meal_name) with
  | Except.ok res => Except.ok res
  | Except.error e => Except.error ⟨500, toString e.status ++ ": " ++ e.detail⟩

/-- the insert `INSERT INTO extra_meals ... ON CONFLICT (name) DO NOTHING`
(main.py lines 190-195) as a table transformer: when a row with the same name
exists the table is unchanged, otherwise the row is appended. -/
def insert_row (table : List SupabaseRow) (row : SupabaseRow) : List SupabaseRow :=
  if table.any (fun r => r.name == row.name) then table else table ++ [row]

/-- the row built by the insert statement; `id` models the datastore-assigned
serial key (its value never matters to the conflict check, which is on
`name`). -/
def mkNewRow (table : List SupabaseRow) (name category area instructions ingredients images : String)
    (minutes : Int) : SupabaseRow :=
  ⟨Int.ofNat table.length, name, category, area, instructions, ingredients, images, minutes⟩

/-- table state after one `add_meal` call with the given field values. -/
def add_meal_table (table : List SupabaseRow)
    (name category area instructions ingredients images : String) (minutes : Int) :
    List SupabaseRow :=
  insert_row table (mkNewRow table name category area instructions ingredients images minutes)

/-- `add_meal` (main.py lines 174-203): 500 when the pool is unavailable;
otherwise run the conflict-ignoring insert and acknowledge with
`\x7b"message": "Meal added successfully"\x7d` (the `asyncpg.UniqueViolationError`
branch is unreachable because `ON CONFLICT (name) DO NOTHING` suppresses the
violation). Returns the new table state together with the acknowledgement. -/
def add_meal (dbAvailable : Bool) (table : List SupabaseRow)
    (name category area instructions ingredients images : String) (minutes : Int) :
    Except HTTPErr (List SupabaseRow × String) :=
  if dbAvailable = false then
    Except.error ⟨500, "Database connection not available"⟩
  else
    Except.ok (add_meal_table table name category area instructions ingredients images minutes,
      "Meal added successfully")

/-- number of items in a list of meals tagged with the Supabase provenance. -/
def supabaseTagCount (meals : List Meal) : Nat :=
  (meals.filter (fun m => m.source == "Supabase DB")).length

/-- a plain MealDB-style record used for concrete evaluations. -/
def mkMeal (i : Nat) : Meal :=
  { idMeal := toString i
    strMeal := "Meal" ++ toString i
    strCategory := "Cat"
    strArea := "Area"
    strInstructions := "Cook"
    strMealThumb := ""
    strIngredients := IngredientField.seq []
    minutes := 0
    source := "" }

/-- a plain Supabase row whose name starts with the given stem. -/
def mkRow (stem : String) (i : Nat) : SupabaseRow :=
  ⟨Int.ofNat i, stem ++ toString i, "Cat", "Area", "Cook", "", "", 0⟩

/-- concrete lists used to evaluate the model: plain MealDB responses of 3
and 15 records, and tables whose query returns 17 rows for "ab" and 3 rows
for "Chicken". -/
def cexMeals3 : List Meal := (List.range 3).map mkMeal

/-- fifteen plain MealDB records. -/
def cexMeals15 : List Meal := (List.range 15).map mkMeal

/-- seventeen rows named "ab0" … "ab16". -/
def cexTable17 : List SupabaseRow := (List.range 17).map (mkRow "ab")

/-- three rows named "Chicken 0" … "Chicken 2". -/
def cexTable3 : List SupabaseRow := (List.range 3).map (mkRow "Chicken ")

/-- projection used in concrete counterexamples: the per-source contribution
visible in a result (raw MealDB count, Supabase-tagged items in `data`). -/
def countsOf (res : SearchResult) : Nat × Nat :=
  (res.mealdb_count, supabaseTagCount res.data)

/-- projection used in concrete counterexamples: the ingredient fields of the
returned recipes. -/
def ingredientsOf (res : SearchResult) : List IngredientField :=
  res.data.map Meal.strIngredients

theorem detRand_Valid : Rng.Valid detRand := by
  refine ⟨fun xs k hk => ?_, fun xs k m hm => ?_, fun xs => List.Perm.refl xs⟩
  · simpa [detRand] using Nat.min_eq_left hk
  · exact List.mem_of_mem_take hm

theorem balancedSelect_parts (r : Rng) (hr : r.Valid) (m s : List Meal)
    (hm : m.isEmpty = false) (hs : s.isEmpty = false) :
    ∃ fm fs, balancedSelect r m s = fm ++ fs ∧
      fm.length = min m.length (MAX_RESULTS / 2) ∧
      fs.length = min s.length (MAX_RESULTS - min m.length (MAX_RESULTS / 2)) ∧
      (∀ x ∈ fm, x ∈ m) ∧ (∀ x ∈ fs, x ∈ s) := by
  obtain ⟨hlen, hmem, -⟩ := hr
  refine ⟨if min m.length (MAX_RESULTS / 2) < m.length then
      r.sample m (min m.length (MAX_RESULTS / 2)) else m,
    if MAX_RESULTS - min m.length (MAX_RESULTS / 2) < s.length then
      r.sample s (MAX_RESULTS - min m.length (MAX_RESULTS / 2)) else s,
    ?_, ?_, ?_, ?_, ?_⟩
  · simp only [balancedSelect, hm, hs, Bool.not_eq_true, and_self, if_true]
  · by_cases h : min m.length (MAX_RESULTS / 2) < m.length
    · rw [if_pos h, hlen _ _ (Nat.le_of_lt h)]
    · rw [if_neg h]
      have h2 : min m.length (MAX_RESULTS / 2) ≤ m.length := Nat.min_le_left _ _
      omega
  · by_cases h : MAX_RESULTS - min m.length (MAX_RESULTS / 2) < s.length
    · rw [if_pos h, hlen _ _ (Nat.le_of_lt h)]
      omega
    · rw [if_neg h]
      omega
  · by_cases h : min m.length (MAX_RESULTS / 2) < m.length
    · rw [if_pos h]; exact fun x hx => hmem _ _ _ hx
    · rw [if_neg h]; exact fun x hx => hx
  · by_cases h : MAX_RESULTS - min m.length (MAX_RESULTS / 2) < s.length
    · rw [if_pos h]; exact fun x hx => hmem _ _ _ hx
    · rw [if_neg h]; exact fun x hx => hx

theorem balancedSelect_length_le (r : Rng) (hr : r.Valid) (m s : List Meal) :
    (balancedSelect r m s).length ≤ MAX_RESULTS ∧
      (balancedSelect r m s).length ≤ m.length + s.length := by
  by_cases hm : m.isEmpty
  · have hm' : m = [] := List.isEmpty_iff.mp hm
    subst hm'
    simp only [balancedSelect, List.isEmpty_nil, not_true_eq_false, false_and, if_false,
      not_false_eq_true, if_true]
    have h1 : min ([] : List Meal).length MAX_RESULTS ≤ ([] : List Meal).length := Nat.min_le_left _ _
    simp only [List.length_nil, Nat.min_comm, Nat.zero_min] at h1 ⊢
    rw [hr.1 _ _ (by simp [Nat.min_le_left])]
    constructor <;> omega
  · by_cases hs : s.isEmpty
    · have hs' : s = [] := List.isEmpty_iff.mp hs
      subst hs'
      simp only [balancedSelect, List.isEmpty_nil, not_true_eq_false, and_false, if_false]
      have hm2 : ¬m.isEmpty = true := hm
      simp only [hm2, not_false_eq_true, if_true]
      rw [hr.1 _ _ (Nat.min_le_left _ _)]
      constructor <;> simp [Nat.min_le_left, Nat.min_le_right]
    · obtain ⟨fm, fs, heq, hfm, hfs, -, -⟩ :=
        balancedSelect_parts r hr m s (Bool.not_eq_true _ ▸ hm) (Bool.not_eq_true _ ▸ hs)
      rw [heq, List.length_append, hfm, hfs]
      have h1 : min m.length (MAX_RESULTS / 2) ≤ m.length := Nat.min_le_left _ _
      have h2 : min m.length (MAX_RESULTS / 2) ≤ MAX_RESULTS / 2 := Nat.min_le_right _ _
      have h3 : min s.length (MAX_RESULTS - min m.length (MAX_RESULTS / 2)) ≤ s.length :=
        Nat.min_le_left _ _
      have h4 : min s.length (MAX_RESULTS - min m.length (MAX_RESULTS / 2)) ≤
          MAX_RESULTS - min m.length (MAX_RESULTS / 2) := Nat.min_le_right _ _
      simp only [MAX_RESULTS] at *
      omega

theorem balancedSelect_mem (r : Rng) (hr : r.Valid) (m s : List Meal) (x : Meal)
    (hx : x ∈ balancedSelect r m s) : x ∈ m ∨ x ∈ s := by
  obtain ⟨-, hmem, -⟩ := hr
  unfold balancedSelect at hx
  by_cases hc : ¬m.isEmpty = true ∧ ¬s.isEmpty = true
  · rw [if_pos hc] at hx
    rcases List.mem_append.mp hx with h | h
    · by_cases hlt : min m.length (MAX_RESULTS / 2) < m.length
      · rw [if_pos hlt] at h; exact Or.inl (hmem _ _ _ h)
      · rw [if_neg hlt] at h; exact Or.inl h
    · by_cases hlt : MAX_RESULTS - min m.length (MAX_RESULTS / 2) < s.length
      · rw [if_pos hlt] at h; exact Or.inr (hmem _ _ _ h)
      · rw [if_neg hlt] at h; exact Or.inr h
  · rw [if_neg hc] at hx
    by_cases hme : ¬m.isEmpty = true
    · rw [if_pos hme] at hx; exact Or.inl (hmem _ _ _ hx)
    · rw [if_neg hme] at hx; exact Or.inr (hmem _ _ _ hx)

theorem get_meal_invalid_term (r : Rng) (name : String)
    (mresp : FetchOutcome (Option (List Meal))) (dbresp : FetchOutcome (List SupabaseRow))
    (h1 : name = "" ∨ (pyStripWs name).length < 2) :
    get_meal r name mresp dbresp =
      Except.error ⟨500, "400: Search term must be at least 2 characters"⟩ := by
  unfold get_meal get_meal_try
  rw [if_pos h1]
  rfl

theorem get_meal_valid_term (r : Rng) (name : String)
    (mresp : FetchOutcome (Option (List Meal))) (dbresp : FetchOutcome (List SupabaseRow))
    (h1 : ¬(name = "" ∨ (pyStripWs name).length < 2)) :
    get_meal r name mresp dbresp =
      (if (fetch_mealdb_meals mresp).isEmpty ∧ (fetch_supabase_meals dbresp name).isEmpty then
        Except.ok ⟨0, 0, 0, 0, MAX_RESULTS, []⟩
      else
        Except.ok ⟨(fetch_mealdb_meals mresp).length + (fetch_supabase_meals dbresp name).length,
          (fetch_mealdb_meals mresp).length, (fetch_supabase_meals dbresp name).length,
          (r.shuffle (balancedSelect r (fetch_mealdb_meals mresp)
            (fetch_supabase_meals dbresp name))).length,
          MAX_RESULTS,
          r.shuffle (balancedSelect r (fetch_mealdb_meals mresp)
            (fetch_supabase_meals dbresp name))⟩) := by
  unfold get_meal get_meal_try
  rw [if_neg h1]
  by_cases h2 : (fetch_mealdb_meals mresp).isEmpty ∧ (fetch_supabase_meals dbresp name).isEmpty
  · rw [if_pos h2]
  · rw [if_neg h2]

theorem fetch_mealdb_source (resp : FetchOutcome (Option (List Meal))) (x : Meal)
    (hx : x ∈ fetch_mealdb_meals resp) : x.source = "MealDB" := by
  match resp with
  | FetchOutcome.err => simp [fetch_mealdb_meals] at hx
  | FetchOutcome.ok none => simp [fetch_mealdb_meals] at hx
  | FetchOutcome.ok (some meals) =>
    simp only [fetch_mealdb_meals] at hx
    by_cases he : meals.isEmpty
    · rw [if_pos he] at hx; simp at hx
    · rw [if_neg he] at hx
      obtain ⟨m, -, hmx⟩ := List.mem_map.mp hx
      rw [← hmx]

theorem fetch_supabase_shape (dbresp : FetchOutcome (List SupabaseRow)) (name : String) (x : Meal)
    (hx : x ∈ fetch_supabase_meals dbresp name) :
    x.source = "Supabase DB" ∧ ∃ l, x.strIngredients = IngredientField.seq l := by
  match dbresp with
  | FetchOutcome.err => simp [fetch_supabase_meals] at hx
  | FetchOutcome.ok table =>
    simp only [fetch_supabase_meals] at hx
    obtain ⟨row, -, hrx⟩ := List.mem_map.mp hx
    rw [← hrx]
    exact ⟨rfl, parseIngredients row.ingredients, rfl⟩

/-- the all-zero result returned when both sources are empty. -/
def zeroResult : SearchResult := ⟨0, 0, 0, 0, MAX_RESULTS, []⟩

/-- result of a concrete search where only MealDB returns (one record). -/
def oneMealResult : SearchResult :=
  ⟨1, 1, 0, 1, MAX_RESULTS, [{ mkMeal 0 with source := "MealDB" }]⟩

/-- result of a concrete search where only the datastore returns (one row). -/
def oneRowResult : SearchResult :=
  ⟨1, 0, 1, 1, MAX_RESULTS, [rowToMeal (mkRow "ab" 0)]⟩

/-- C10: every successful search response is internally consistent:
`returned_results` equals the length of `data`, `total_available` equals
`mealdb_count + supabase_count`, and `max_results` is the constant
`MAX_RESULTS = 20`. -/
theorem search_result_consistency (r : Rng) (name : String)
    (mresp : FetchOutcome (Option (List Meal))) (dbresp : FetchOutcome (List SupabaseRow))
    (res : SearchResult) (h : get_meal r name mresp dbresp = Except.ok res) :
    res.returned_results = res.data.length ∧
    res.total_available = res.mealdb_count + res.supabase_count ∧
    res.max_results = MAX_RESULTS ∧ MAX_RESULTS = 20 := by
  by_cases h1 : name = "" ∨ (pyStripWs name).length < 2
  · rw [get_meal_invalid_term r name mresp dbresp h1] at h
    simp at h
  · rw [get_meal_valid_term r name mresp dbresp h1] at h
    by_cases h2 : (fetch_mealdb_meals mresp).isEmpty ∧ (fetch_supabase_meals dbresp name).isEmpty
    · rw [if_pos h2] at h
      injection h with h
      subst h
      exact ⟨rfl, rfl, rfl, rfl⟩
    · rw [if_neg h2] at h
      injection h with h
      subst h
      exact ⟨rfl, rfl, rfl, rfl⟩

/-- witness for `search_result_consistency` at a concrete run. -/
theorem search_result_consistency_witness :
    zeroResult.returned_results = zeroResult.data.length ∧
    zeroResult.total_available = zeroResult.mealdb_count + zeroResult.supabase_count ∧
    zeroResult.max_results = MAX_RESULTS ∧ MAX_RESULTS = 20 :=
  search_result_consistency detRand "xy" (FetchOutcome.ok none) FetchOutcome.err zeroResult rfl

/-- C4: for every search that returns a result, `returned_results` is at most
`max_results` and at most `total_available`, for all sizes of the two source
result sets. -/
theorem search_caps_respected (r : Rng) (hr : r.Valid) (name : String)
    (mresp : FetchOutcome (Option (List Meal))) (dbresp : FetchOutcome (List SupabaseRow))
    (res : SearchResult) (h : get_meal r name mresp dbresp = Except.ok res) :
    res.returned_results ≤ res.max_results ∧ res.returned_results ≤ res.total_available := by
  by_cases h1 : name = "" ∨ (pyStripWs name).length < 2
  · rw [get_meal_invalid_term r name mresp dbresp h1] at h
    simp at h
  · rw [get_meal_valid_term r name mresp dbresp h1] at h
    by_cases h2 : (fetch_mealdb_meals mresp).isEmpty ∧ (fetch_supabase_meals dbresp name).isEmpty
    · rw [if_pos h2] at h
      injection h with h
      subst h
      exact ⟨by simp [MAX_RESULTS], Nat.le_refl 0⟩
    · rw [if_neg h2] at h
      injection h with h
      subst h
      obtain ⟨hle1, hle2⟩ := balancedSelect_length_le r hr (fetch_mealdb_meals mresp)
        (fetch_supabase_meals dbresp name)
      have hperm := hr.2.2 (balancedSelect r (fetch_mealdb_meals mresp)
        (fetch_supabase_meals dbresp name))
      constructor
      · show (r.shuffle _).length ≤ MAX_RESULTS
        rw [hperm.length_eq]
        exact hle1
      · show (r.shuffle _).length ≤ _ + _
        rw [hperm.length_eq]
        exact hle2

/-- witness for `search_caps_respected` at a concrete run. -/
theorem search_caps_respected_witness :
    oneMealResult.returned_results ≤ oneMealResult.max_results ∧
    oneMealResult.returned_results ≤ oneMealResult.total_available :=
  search_caps_respected detRand detRand_Valid "ab" (FetchOutcome.ok (some [mkMeal 0]))
    FetchOutcome.err oneMealResult rfl

/-- C8: every recipe in the final output carries a non-empty provenance tag
that is one of the two known values ("MealDB" or "Supabase DB"). -/
theorem output_provenance (r : Rng) (hr : r.Valid) (name : String)
    (mresp : FetchOutcome (Option (List Meal))) (dbresp : FetchOutcome (List SupabaseRow))
    (res : SearchResult) (h : get_meal r name mresp dbresp = Except.ok res) :
    ∀ m ∈ res.data, m.source ≠ "" ∧ (m.source = "MealDB" ∨ m.source = "Supabase DB") := by
  intro m hm
  by_cases h1 : name = "" ∨ (pyStripWs name).length < 2
  · rw [get_meal_invalid_term r name mresp dbresp h1] at h
    simp at h
  · rw [get_meal_valid_term r name mresp dbresp h1] at h
    by_cases h2 : (fetch_mealdb_meals mresp).isEmpty ∧ (fetch_supabase_meals dbresp name).isEmpty
    · rw [if_pos h2] at h
      injection h with h
      subst h
      simp at hm
    · rw [if_neg h2] at h
      injection h with h
      subst h
      have hperm := hr.2.2 (balancedSelect r (fetch_mealdb_meals mresp)
        (fetch_supabase_meals dbresp name))
      have hmem : m ∈ balancedSelect r (fetch_mealdb_meals mresp)
          (fetch_supabase_meals dbresp name) := hperm.mem_iff.mp hm
      rcases balancedSelect_mem r hr _ _ m hmem with h3 | h3
      · rw [fetch_mealdb_source mresp m h3]
        exact ⟨by decide, Or.inl rfl⟩
      · rw [(fetch_supabase_shape dbresp name m h3).1]
        exact ⟨by decide, Or.inr rfl⟩

/-- witness for `output_provenance` at a concrete run. -/
theorem output_provenance_witness :
    ({ mkMeal 0 with source := "MealDB" } : Meal).source ≠ "" ∧
    (({ mkMeal 0 with source := "MealDB" } : Meal).source = "MealDB" ∨
      ({ mkMeal 0 with source := "MealDB" } : Meal).source = "Supabase DB") :=
  output_provenance detRand detRand_Valid "ab" (FetchOutcome.ok (some [mkMeal 0]))
    FetchOutcome.err oneMealResult rfl { mkMeal 0 with source := "MealDB" }
    (by simp [oneMealResult])

/-- C5: for every valid term, a failure in either source fetch yields an
empty set for that source rather than aborting (the response is the same as
with an empty success), the search still returns 200 with best-effort data,
and when both sources fail it returns the all-zero result, not an error. -/
theorem fetch_failure_isolated (r : Rng) (name : String)
    (mresp : FetchOutcome (Option (List Meal))) (dbresp : FetchOutcome (List SupabaseRow))
    (h1 : ¬(name = "" ∨ (pyStripWs name).length < 2)) :
    (∃ res, get_meal r name mresp dbresp = Except.ok res) ∧
    get_meal r name FetchOutcome.err dbresp = get_meal r name (FetchOutcome.ok none) dbresp ∧
    get_meal r name mresp FetchOutcome.err = get_meal r name mresp (FetchOutcome.ok []) ∧
    get_meal r name FetchOutcome.err FetchOutcome.err = Except.ok zeroResult := by
  refine ⟨?_, rfl, rfl, ?_⟩
  · rw [get_meal_valid_term r name mresp dbresp h1]
    by_cases h2 : (fetch_mealdb_meals mresp).isEmpty ∧ (fetch_supabase_meals dbresp name).isEmpty
    · rw [if_pos h2]
      exact ⟨_, rfl⟩
    · rw [if_neg h2]
      exact ⟨_, rfl⟩
  · rw [get_meal_valid_term r name FetchOutcome.err FetchOutcome.err h1]
    rw [if_pos ⟨rfl, rfl⟩]
    rfl

/-- witness for `fetch_failure_isolated` at a concrete run. -/
theorem fetch_failure_isolated_witness :
    (∃ res, get_meal detRand "ab" (FetchOutcome.ok (some [mkMeal 0])) FetchOutcome.err =
      Except.ok res) ∧
    get_meal detRand "ab" FetchOutcome.err FetchOutcome.err =
      get_meal detRand "ab" (FetchOutcome.ok none) FetchOutcome.err ∧
    get_meal detRand "ab" (FetchOutcome.ok (some [mkMeal 0])) FetchOutcome.err =
      get_meal detRand "ab" (FetchOutcome.ok (some [mkMeal 0])) (FetchOutcome.ok []) ∧
    get_meal detRand "ab" FetchOutcome.err FetchOutcome.err = Except.ok zeroResult :=
  fetch_failure_isolated detRand "ab" (FetchOutcome.ok (some [mkMeal 0])) FetchOutcome.err
    (by decide)

/-- C3 (code bug): a search term whose trimmed length is below 2 characters
raises `HTTPException(400, ...)` inside the handler body, but the trailing
`except Exception` clause of `get_meal` catches it and re-raises it as a 500,
so the client observes a 500, not a 400. -/
theorem short_term_gives_500 :
    get_meal detRand "a" (FetchOutcome.ok none) FetchOutcome.err =
      Except.error ⟨500, "400: Search term must be at least 2 characters"⟩ ∧
    get_meal_try detRand "a" [] [] =
      Except.error ⟨400, "Search term must be at least 2 characters"⟩ ∧
    (500 : Nat) ≠ 400 :=
  ⟨rfl, rfl, by decide⟩

/-- a list is pairwise related when every pair of its members is. -/
theorem pairwise_of_all_rel {α : Type} (R : α → α → Prop) :
    ∀ l : List α, (∀ a ∈ l, ∀ b ∈ l, R a b) → l.Pairwise R
  | [], _ => List.Pairwise.nil
  | x :: xs, h =>
      List.Pairwise.cons
        (fun b hb => h x (List.mem_cons_self x xs) b (List.mem_cons_of_mem x hb))
        (pairwise_of_all_rel R xs
          (fun a ha b hb => h a (List.mem_cons_of_mem x ha) b (List.mem_cons_of_mem x hb)))

/-- C6: `add_meal` is idempotent by name: inserting a name that already
exists leaves the table unchanged and still returns the success
acknowledgement, and running the same insert twice has the same table effect
as running it once. -/
theorem add_meal_idempotent (table : List SupabaseRow)
    (name category area instructions ingredients images : String) (minutes : Int)
    (hdup : table.any (fun r => r.name == name) = true) :
    add_meal true table name category area instructions ingredients images minutes =
      Except.ok (table, "Meal added successfully") ∧
    ∀ t : List SupabaseRow,
      add_meal_table (add_meal_table t name category area instructions ingredients images minutes)
          name category area instructions ingredients images minutes =
        add_meal_table t name category area instructions ingredients images minutes := by
  constructor
  · simp only [add_meal, add_meal_table, insert_row, mkNewRow, hdup, if_true, Bool.true_eq_false,
      if_false]
  · intro t
    by_cases hc : t.any (fun r => r.name == name) = true
    · simp only [add_meal_table, insert_row, mkNewRow, hc, if_true]
    · simp only [add_meal_table, insert_row, mkNewRow, hc, if_false, Bool.false_eq_true,
        List.any_append, List.any_cons, List.any_nil, Bool.or_false, beq_self_eq_true,
        Bool.or_true, if_true]

/-- witness for `add_meal_idempotent` at a concrete table. -/
theorem add_meal_idempotent_witness :
    add_meal true [mkRow "Pasta" 0] "Pasta0" "Cat" "Area" "Cook" "" "" 0 =
      Except.ok ([mkRow "Pasta" 0], "Meal added successfully") ∧
    ∀ t : List SupabaseRow,
      add_meal_table (add_meal_table t "Pasta0" "Cat" "Area" "Cook" "" "" 0)
          "Pasta0" "Cat" "Area" "Cook" "" "" 0 =
        add_meal_table t "Pasta0" "Cat" "Area" "Cook" "" "" 0 :=
  add_meal_idempotent [mkRow "Pasta" 0] "Pasta0" "Cat" "Area" "Cook" "" "" 0 (by decide)

/-- a contiguous-segment test is the same as prefix-testing every suffix. -/
theorem listContainsSeg_eq_any (w : List Char) :
    ∀ s, listContainsSeg w s = (suffixes s).any (fun t => w.isPrefixOf t)
  | [] => by cases w <;> rfl
  | c :: cs => by
    simp only [listContainsSeg, suffixes, List.any_cons]
    rw [listContainsSeg_eq_any w cs]

/-- the empty pattern suffix of a `%` wildcard always finds a match: every
suffix list ends with the empty suffix. -/
theorem suffixes_any_isEmpty (s : List Char) :
    (suffixes s).any (fun t => t.isEmpty) = true := by
  induction s with
  | nil => rfl
  | cons c cs ih => simp [suffixes, List.any_cons, ih]

/-- a pattern of literals followed by one `%` matches exactly the lists that
start with those literals. -/
theorem likeMatch_lit_anySeq (w : List Char) :
    ∀ s, likeMatch (w.map LikeTok.lit ++ [LikeTok.anySeq]) s = w.isPrefixOf s := by
  induction w with
  | nil =>
    intro s
    show (suffixes s).any (fun t => likeMatch [] t) = ([] : List Char).isPrefixOf s
    rw [show ((fun t => likeMatch [] t) : List Char → Bool) = fun t => t.isEmpty from rfl]
    rw [suffixes_any_isEmpty s]
    cases s <;> rfl
  | cons c cs ih =>
    intro s
    cases s with
    | nil => rfl
    | cons d ds =>
      show ((c == d) && likeMatch (cs.map LikeTok.lit ++ [LikeTok.anySeq]) ds) = _
      rw [ih ds]
      rfl

/-- unfolding of `likeLex` at a non-metacharacter head. -/
theorem likeLex_cons_nonmeta (c : Char) (rest : List Char)
    (h37 : ¬c = Char.ofNat 37) (h95 : ¬c = Char.ofNat 95) (h92 : ¬c = Char.ofNat 92) :
    likeLex (c :: rest) = LikeTok.lit c :: likeLex rest := by
  cases rest with
  | nil => simp [likeLex, h37, h95, h92]
  | cons d ds => simp [likeLex, h37, h95, h92]

/-- unfolding of `likeLex` at a `%` head. -/
theorem likeLex_cons_pct (rest : List Char) :
    likeLex (Char.ofNat 37 :: rest) = LikeTok.anySeq :: likeLex rest := by
  cases rest with
  | nil => rfl
  | cons d ds => rfl

/-- lexing a metacharacter-free word followed by `%` yields the literal
tokens of the word and one `%` wildcard. -/
theorem likeLex_lit_append :
    ∀ w : List Char,
      (∀ c ∈ w, ¬(c = Char.ofNat 37 ∨ c = Char.ofNat 95 ∨ c = Char.ofNat 92)) →
      likeLex (w ++ [Char.ofNat 37]) = w.map LikeTok.lit ++ [LikeTok.anySeq]
  | [], _ => by
    show likeLex [Char.ofNat 37] = [LikeTok.anySeq]
    rfl
  | c :: cs, hw => by
    have hc := hw c (List.mem_cons_self c cs)
    push_neg at hc
    obtain ⟨h37, h95, h92⟩ := hc
    show likeLex (c :: (cs ++ [Char.ofNat 37])) =
      LikeTok.lit c :: (cs.map LikeTok.lit ++ [LikeTok.anySeq])
    rw [likeLex_cons_nonmeta c _ h37 h95 h92,
      likeLex_lit_append cs (fun d hd => hw d (List.mem_cons_of_mem c hd))]

/-- on terms free of LIKE metacharacters, the LIKE condition of the query is
exactly case-insensitive substring containment. -/
theorem nameLike_eq_contains (term : String)
    (hterm : (strLower term).all (fun c => !isLikeMeta c) = true) (row : SupabaseRow) :
    nameLike term row = lowerContains row.name term := by
  have hw : ∀ c ∈ strLower term,
      ¬(c = Char.ofNat 37 ∨ c = Char.ofNat 95 ∨ c = Char.ofNat 92) := by
    intro c hc habs
    have h := (List.all_eq_true.mp hterm) c hc
    rcases habs with h1 | h1 | h1 <;> subst h1 <;> simp [isLikeMeta] at h
  show likeMatch (likeLex (Char.ofNat 37 :: (strLower term ++ [Char.ofNat 37])))
      (strLower row.name) = _
  rw [likeLex_cons_pct, likeLex_lit_append (strLower term) hw]
  show (suffixes (strLower row.name)).any
      (fun t => likeMatch ((strLower term).map LikeTok.lit ++ [LikeTok.anySeq]) t) = _
  simp only [likeMatch_lit_anySeq]
  exact (listContainsSeg_eq_any (strLower term) (strLower row.name)).symm

/-- a row named "ab", matched by the LIKE pattern of the term "a_". -/
def wildRow : SupabaseRow := ⟨0, "ab", "Cat", "Area", "Cook", "", "", 0⟩

/-- C9 (counterexample): the reachable term "a_" (trimmed length 2) is
spliced into the LIKE pattern as `%a_%`, where `_` matches any single
character, so the query returns the row named "ab" even though "a_" is not a
case-insensitive substring of "ab" — the fetch does not match by
substring. -/
theorem supabase_substring_cex :
    supabaseQuery [wildRow] "a_" = [wildRow] ∧
    lowerContains wildRow.name "a_" = false ∧
    2 ≤ (pyStripWs "a_").length :=
  ⟨rfl, rfl, by decide⟩

/-- C9 (amended): the datastore fetch selects exactly the rows whose name
satisfies `LOWER(name) LIKE LOWER('%' + term + '%')`, where `%`, `_` and the
escape `\x5c` inside the user term keep their LIKE wildcard meaning; on
terms free of these metacharacters this is exactly a case-insensitive
substring match. The rows are ordered so that every exact case-insensitive
match (priority 1) precedes every partial match (priority 2, ascending
priority), and `fetch_supabase_meals` returns exactly the normalized image
of that query. -/
theorem supabase_query_like (table : List SupabaseRow) (term : String) :
    (∀ row, row ∈ supabaseQuery table term ↔
      row ∈ table ∧ nameLike term row = true) ∧
    List.Sorted (fun a b => match_priority term a ≤ match_priority term b)
      (supabaseQuery table term) ∧
    fetch_supabase_meals (FetchOutcome.ok table) term =
      (supabaseQuery table term).map rowToMeal ∧
    ((strLower term).all (fun c => !isLikeMeta c) = true →
      ∀ row : SupabaseRow, nameLike term row = lowerContains row.name term) := by
  refine ⟨?_, ?_, rfl, fun h row => nameLike_eq_contains term h row⟩
  · intro row
    by_cases hp : strLower row.name = strLower term <;>
      simp [supabaseQuery, List.mem_filter, match_priority, hp]
  · have hall1 : ∀ x ∈ (table.filter (fun row => nameLike term row)).filter
        (fun row => match_priority term row == 1), match_priority term x = 1 := by
      intro x hx
      simpa using (List.mem_filter.mp hx).2
    have hall2 : ∀ x ∈ (table.filter (fun row => nameLike term row)).filter
        (fun row => match_priority term row == 2), match_priority term x = 2 := by
      intro x hx
      simpa using (List.mem_filter.mp hx).2
    show List.Pairwise _ _
    simp only [supabaseQuery]
    refine List.pairwise_append.mpr ⟨?_, ?_, ?_⟩
    · refine pairwise_of_all_rel _ _ (fun a ha b hb => ?_)
      rw [hall1 a ha, hall1 b hb]
    · refine pairwise_of_all_rel _ _ (fun a ha b hb => ?_)
      rw [hall2 a ha, hall2 b hb]
    · intro a ha b hb
      rw [hall1 a ha, hall2 b hb]
      omega

/-- witness for `supabase_query_like`: on the wildcard-free term "Chicken"
the LIKE condition coincides with substring containment. -/
theorem supabase_query_like_witness :
    nameLike "Chicken" (mkRow "Chicken " 0) =
      lowerContains (mkRow "Chicken " 0).name "Chicken" :=
  (supabase_query_like [mkRow "Chicken " 0] "Chicken").2.2.2 (by decide) (mkRow "Chicken " 0)

/-- a MealDB record whose ingredient field is a raw delimited string, exactly
as an upstream response may carry it. -/
def rawIngredientMeal : Meal :=
  { mkMeal 0 with strIngredients := IngredientField.raw "Chicken, Salt" }

/-- C7 (counterexample): a search whose MealDB response carries a raw
delimited ingredient string returns that record unchanged — the final output
contains an ingredient field that is not a sequence, because `get_meal` never
normalizes MealDB records. -/
theorem ingredients_always_seq_cex :
    (get_meal detRand "Chicken" (FetchOutcome.ok (some [rawIngredientMeal]))
        FetchOutcome.err).toOption.map ingredientsOf =
      some [IngredientField.raw "Chicken, Salt"] :=
  rfl

/-- C7 (amended): every datastore-sourced recipe in a search result has its
ingredient field as an ordered sequence of strings, and an empty stored
ingredient field yields the empty sequence; MealDB records are passed through
as received, so only the datastore source carries this guarantee. -/
theorem datastore_ingredients_normalized (r : Rng) (hr : r.Valid) (name : String)
    (mresp : FetchOutcome (Option (List Meal))) (dbresp : FetchOutcome (List SupabaseRow))
    (res : SearchResult) (h : get_meal r name mresp dbresp = Except.ok res) :
    (∀ m ∈ res.data, m.source = "Supabase DB" →
      ∃ l, m.strIngredients = IngredientField.seq l) ∧
    ∀ row : SupabaseRow, row.ingredients = "" →
      (rowToMeal row).strIngredients = IngredientField.seq [] := by
  constructor
  · intro m hm hsrc
    by_cases h1 : name = "" ∨ (pyStripWs name).length < 2
    · rw [get_meal_invalid_term r name mresp dbresp h1] at h
      simp at h
    · rw [get_meal_valid_term r name mresp dbresp h1] at h
      by_cases h2 : (fetch_mealdb_meals mresp).isEmpty ∧ (fetch_supabase_meals dbresp name).isEmpty
      · rw [if_pos h2] at h
        injection h with h
        subst h
        simp at hm
      · rw [if_neg h2] at h
        injection h with h
        subst h
        have hperm := hr.2.2 (balancedSelect r (fetch_mealdb_meals mresp)
          (fetch_supabase_meals dbresp name))
        have hmem : m ∈ balancedSelect r (fetch_mealdb_meals mresp)
            (fetch_supabase_meals dbresp name) := hperm.mem_iff.mp hm
        rcases balancedSelect_mem r hr _ _ m hmem with h3 | h3
        · exact absurd hsrc (by rw [fetch_mealdb_source mresp m h3]; decide)
        · exact (fetch_supabase_shape dbresp name m h3).2
  · intro row hrow
    simp [rowToMeal, parseIngredients, hrow]

/-- witness for `datastore_ingredients_normalized` at a concrete run. -/
theorem datastore_ingredients_normalized_witness :
    (∀ m ∈ oneRowResult.data, m.source = "Supabase DB" →
      ∃ l, m.strIngredients = IngredientField.seq l) ∧
    ∀ row : SupabaseRow, row.ingredients = "" →
      (rowToMeal row).strIngredients = IngredientField.seq [] :=
  datastore_ingredients_normalized detRand detRand_Valid "ab" (FetchOutcome.ok none)
    (FetchOutcome.ok [mkRow "ab" 0]) oneRowResult rfl

/-- C1 (counterexample): with 3 MealDB results and 17 datastore results the
datastore side is allocated `MAX_RESULTS - 3 = 17` slots and contributes all
17 items even though the MealDB source is non-empty — more than the
`MAX_RESULTS - MAX_RESULTS / 2 = 10` the claim allows, because the MealDB
shortfall is redistributed to the datastore side. -/
theorem balanced_allocation_cex :
    (get_meal detRand "ab" (FetchOutcome.ok (some cexMeals3))
        (FetchOutcome.ok cexTable17)).toOption.map countsOf = some (3, 17) ∧
    ¬(17 ≤ MAX_RESULTS - MAX_RESULTS / 2) :=
  ⟨rfl, by decide⟩

/-- C1 (amended): when both sources produce results, the MealDB set is
allocated `min(its size, MAX_RESULTS // 2)` slots (never more than
`MAX_RESULTS // 2 = 10`) and the datastore set the remainder
`MAX_RESULTS - that allocation`; each source contributes
`min(its size, its allocation)` items, so a datastore shortfall is not
redistributed to MealDB, while a MealDB shortfall enlarges the datastore
allocation beyond `MAX_RESULTS // 2`. -/
theorem balanced_allocation (r : Rng) (hr : r.Valid) (m s : List Meal)
    (hm : m.isEmpty = false) (hs : s.isEmpty = false) :
    ∃ fm fs, balancedSelect r m s = fm ++ fs ∧
      fm.length = min m.length (MAX_RESULTS / 2) ∧
      fs.length = min s.length (MAX_RESULTS - min m.length (MAX_RESULTS / 2)) ∧
      fm.length ≤ MAX_RESULTS / 2 ∧
      (∀ x ∈ fm, x ∈ m) ∧ (∀ x ∈ fs, x ∈ s) := by
  obtain ⟨fm, fs, heq, hfm, hfs, hmm, hms⟩ := balancedSelect_parts r hr m s hm hs
  exact ⟨fm, fs, heq, hfm, hfs, hfm ▸ Nat.min_le_right _ _, hmm, hms⟩

/-- witness for `balanced_allocation` at concrete lists. -/
theorem balanced_allocation_witness :
    ∃ fm fs, balancedSelect detRand cexMeals3 cexMeals15 = fm ++ fs ∧
      fm.length = min cexMeals3.length (MAX_RESULTS / 2) ∧
      fs.length = min cexMeals15.length (MAX_RESULTS - min cexMeals3.length (MAX_RESULTS / 2)) ∧
      fm.length ≤ MAX_RESULTS / 2 ∧
      (∀ x ∈ fm, x ∈ cexMeals3) ∧ (∀ x ∈ fs, x ∈ cexMeals15) :=
  balanced_allocation detRand detRand_Valid cexMeals3 cexMeals15 rfl rfl

/-- C2 (counterexample): for the scenario with 15 MealDB items and 3
datastore items, the service returns 13 results, not 18 — the MealDB side is
sampled down to its 10-slot allocation even though the total is under the
cap. -/
theorem scenario_15_3_cex :
    (get_meal detRand "Chicken" (FetchOutcome.ok (some cexMeals15))
        (FetchOutcome.ok cexTable3)).toOption.map SearchResult.returned_results = some 13 ∧
    (13 : Nat) ≠ 18 :=
  ⟨rfl, by decide⟩

/-- C2 (amended): in every search where the MealDB fetch yields 15 items and
the datastore fetch yields 3, the result reports `mealdb_count = 15`,
`supabase_count = 3`, `total_available = 18` and `returned_results = 13`
(10 sampled from MealDB plus all 3 datastore items). -/
theorem scenario_15_3 (r : Rng) (hr : r.Valid)
    (mresp : FetchOutcome (Option (List Meal))) (dbresp : FetchOutcome (List SupabaseRow))
    (hm : (fetch_mealdb_meals mresp).length = 15)
    (hs : (fetch_supabase_meals dbresp "Chicken").length = 3) :
    ∃ res, get_meal r "Chicken" mresp dbresp = Except.ok res ∧
      res.mealdb_count = 15 ∧ res.supabase_count = 3 ∧
      res.total_available = 18 ∧ res.returned_results = 13 := by
  have h1 : ¬(("Chicken" : String) = "" ∨ (pyStripWs "Chicken").length < 2) := by decide
  have hme : (fetch_mealdb_meals mresp).isEmpty = false := by
    rcases Bool.eq_false_or_eq_true (fetch_mealdb_meals mresp).isEmpty with hb | hb
    · rw [List.isEmpty_iff.mp hb] at hm
      simp at hm
    · exact hb
  have hse : (fetch_supabase_meals dbresp "Chicken").isEmpty = false := by
    rcases Bool.eq_false_or_eq_true (fetch_supabase_meals dbresp "Chicken").isEmpty with hb | hb
    · rw [List.isEmpty_iff.mp hb] at hs
      simp at hs
    · exact hb
  rw [get_meal_valid_term r "Chicken" mresp dbresp h1]
  rw [if_neg (by simp [hme, hse])]
  refine ⟨_, rfl, hm, hs, by rw [hm, hs], ?_⟩
  show (r.shuffle (balancedSelect r _ _)).length = 13
  have hperm := hr.2.2 (balancedSelect r (fetch_mealdb_meals mresp)
    (fetch_supabase_meals dbresp "Chicken"))
  rw [hperm.length_eq]
  obtain ⟨fm, fs, heq, hfm, hfs, -, -⟩ := balancedSelect_parts r hr _ _ hme hse
  rw [heq, List.length_append, hfm, hfs, hm, hs]
  decide

/-- witness for `scenario_15_3` at a concrete run. -/
theorem scenario_15_3_witness :
    ∃ res, get_meal detRand "Chicken" (FetchOutcome.ok (some cexMeals15))
        (FetchOutcome.ok cexTable3) = Except.ok res ∧
      res.mealdb_count = 15 ∧ res.supabase_count = 3 ∧
      res.total_available = 18 ∧ res.returned_results = 13 :=
  scenario_15_3 detRand detRand_Valid (FetchOutcome.ok (some cexMeals15))
    (FetchOutcome.ok cexTable3) rfl rfl
